import Mathlib

/-!
A verification development for the GPU compute simulator: the data model
(kernels, blocks, warps, threads, memory hierarchy), the four kernel-level
scheduling policies, the per-compute-unit cycle engine, and the metrics
analyzer, shallowly embedded from the C++ sources, together with theorems
settling the specified behaviors.

Modelling conventions:
* `size_t` / `uint64_t` values are embedded as `Nat`; `% 2 ^ 64` is made
  explicit exactly where the C++ wrap-around changes control flow (the
  global-memory bounds check).
* `double` quantities that only ever get compared (`execution_time_ms`) are
  embedded as `Rat`; the one `double` computation whose value matters, the
  `std::log2` pipeline of `createReduction`, is modelled stage by stage (see
  `roundToDouble` and `Workload.createReduction`).
* Mutation through pointers is embedded as explicit state passing: each
  operation returns the updated record, and `ComputeUnit.simulateCycle`
  additionally returns the final value of the warp object it mutated.
* Byte buffers (`GlobalMemory::data_`, `SharedMemory::data_`) are omitted:
  the engine never reads or writes actual bytes, only counters.
-/

set_option autoImplicit false

namespace GPUSim

/-- Modelled from the spec: `WARP_SIZE` comes from `types.h`, which is absent
from the sources; §3 fixes the warp size at 32. -/
def WARP_SIZE : Nat := 32

/-- Modelled from the spec: `MAX_THREADS_PER_BLOCK` comes from the missing
`types.h`; §3 fixes it at 1024. -/
def MAX_THREADS_PER_BLOCK : Nat := 1024

/-- Modelled from the spec: `GLOBAL_MEMORY_SIZE` comes from the missing
`types.h`; §3 fixes the default global memory at 8 GiB. -/
def GLOBAL_MEMORY_SIZE : Nat := 8 * 1024 * 1024 * 1024

/-- Modelled from the spec: `SHARED_MEMORY_PER_BLOCK` comes from the missing
`types.h`; §3 fixes the default shared memory per block at 48 KiB. -/
def SHARED_MEMORY_PER_BLOCK : Nat := 48 * 1024

/-- Modelled from the spec: `REGISTERS_PER_THREAD` comes from the missing
`types.h`; §3 fixes the default register file size at 255. -/
def REGISTERS_PER_THREAD : Nat := 255

/-- `size_t` arithmetic on the 64-bit targets of the build scripts wraps
modulo `2 ^ 64`. -/
def SIZE_T_MOD : Nat := 2 ^ 64

/-- Modelled from the spec: `ExecutionState` comes from the missing `types.h`;
§3 lists the states Idle, Ready, Running, MemoryStalled, Completed. -/
inductive ExecutionState where
  | IDLE
  | READY
  | RUNNING
  | MEMORY_STALLED
  | COMPLETED
deriving DecidableEq, Repr

/-- Modelled from the spec: `WorkloadType` comes from the missing `types.h`;
§3 and §6 list the tags in the order MatrixMultiply, Convolution, VectorAdd,
Reduction, Custom. -/
inductive WorkloadType where
  | MATRIX_MULTIPLY
  | CONVOLUTION
  | VECTOR_ADD
  | REDUCTION
  | CUSTOM
deriving DecidableEq, Repr

/-! ## Memory hierarchy (`memory.h`, the memory implementation file) -/

/-- `GlobalMemory`: byte-addressable region with latency and access counters.
The `data_` buffer is omitted (never read by the engine). -/
structure GlobalMemory where
  size : Nat
  latency_cycles : Nat
  access_count : Nat
  read_count : Nat
  write_count : Nat
  bytes_read : Nat
  bytes_written : Nat
deriving DecidableEq, Repr

/-- `GlobalMemory::GlobalMemory(size_t size)`: ~400 cycles latency, zeroed
counters. -/
def GlobalMemory.create (size : Nat) : GlobalMemory :=
  { size := size
    latency_cycles := 400
    access_count := 0
    read_count := 0
    write_count := 0
    bytes_read := 0
    bytes_written := 0 }

/-- `GlobalMemory::read(address, bytes)`. The guard `address + bytes > size_`
is evaluated in `size_t`, so the sum wraps modulo `2 ^ 64`. -/
def GlobalMemory.read (m : GlobalMemory) (address bytes : Nat) : Bool × GlobalMemory :=
  if (address + bytes) % SIZE_T_MOD > m.size then
    (false, m)
  else
    (true, { m with
      access_count := m.access_count + 1
      read_count := m.read_count + 1
      bytes_read := m.bytes_read + bytes })

/-- `GlobalMemory::write(address, bytes)`, same wrapped guard as `read`. -/
def GlobalMemory.write (m : GlobalMemory) (address bytes : Nat) : Bool × GlobalMemory :=
  if (address + bytes) % SIZE_T_MOD > m.size then
    (false, m)
  else
    (true, { m with
      access_count := m.access_count + 1
      write_count := m.write_count + 1
      bytes_written := m.bytes_written + bytes })

/-- `SharedMemory`: per-block scratch region, ~4 cycles latency; only the
access counter is observable (`data_` omitted). -/
structure SharedMemory where
  size : Nat
  latency_cycles : Nat
  access_count : Nat
  owner_block : Nat
deriving DecidableEq, Repr

/-- `SharedMemory::SharedMemory(size_t size)`. -/
def SharedMemory.create (size : Nat) : SharedMemory :=
  { size := size, latency_cycles := 4, access_count := 0, owner_block := 0 }

/-- `MemoryController`: owns the global memory handle and tallies memory
operations. -/
structure MemoryController where
  global_memory : GlobalMemory
  total_memory_ops : Nat
  cache_hits : Nat
  cache_misses : Nat
deriving DecidableEq, Repr

/-- `MemoryController::MemoryController()`: fresh default-sized global
memory, zeroed counters. -/
def MemoryController.create : MemoryController :=
  { global_memory := GlobalMemory.create GLOBAL_MEMORY_SIZE
    total_memory_ops := 0
    cache_hits := 0
    cache_misses := 0 }

/-- `MemoryController::recordMemoryOp()`. -/
def MemoryController.recordMemoryOp (mc : MemoryController) : MemoryController :=
  { mc with total_memory_ops := mc.total_memory_ops + 1 }

/-! ## SIMT hierarchy (`warp.h`, `warp.cpp`) -/

/-- `RegisterFile`: fixed-size vector of 32-bit registers owned by one
thread. -/
structure RegisterFile where
  registers : List Nat
  owner_thread : Nat
  num_registers : Nat
deriving DecidableEq, Repr

/-- `RegisterFile::RegisterFile(size_t num_regs)`. -/
def RegisterFile.create (num_regs : Nat) : RegisterFile :=
  { registers := List.replicate num_regs 0, owner_thread := 0, num_registers := num_regs }

/-- A single GPU thread. -/
structure Thread where
  thread_id : Nat
  warp_id : Nat
  block_id : Nat
  state : ExecutionState
  registers : RegisterFile
deriving DecidableEq, Repr

/-- `Thread::Thread(tid, wid, bid)`: state Ready, a fresh register file owned
by `tid`. -/
def Thread.create (tid wid bid : Nat) : Thread :=
  { thread_id := tid
    warp_id := wid
    block_id := bid
    state := ExecutionState.READY
    registers := { RegisterFile.create REGISTERS_PER_THREAD with owner_thread := tid } }

/-- A warp: a group of threads advancing in lockstep. -/
structure Warp where
  warp_id : Nat
  block_id : Nat
  threads : List Thread
  state : ExecutionState
  program_counter : Nat
  active_mask : Nat
  instructions_executed : Nat
  cycles_stalled : Nat
deriving DecidableEq, Repr

/-- `Warp::Warp(wid, bid, num_threads)`: all threads active
(`(1ULL << num_threads) - 1`), thread ids laid out as
`bid * MAX_THREADS_PER_BLOCK + wid * WARP_SIZE + i`. -/
def Warp.create (wid bid num_threads : Nat) : Warp :=
  { warp_id := wid
    block_id := bid
    state := ExecutionState.READY
    program_counter := 0
    active_mask := 2 ^ num_threads - 1
    instructions_executed := 0
    cycles_stalled := 0
    threads := (List.range num_threads).map fun i =>
      Thread.create (bid * MAX_THREADS_PER_BLOCK + wid * WARP_SIZE + i) wid bid }

def Warp.getNumThreads (w : Warp) : Nat := w.threads.length

/-- A thread block: warps plus a shared-memory region and a grid position. -/
structure ThreadBlock where
  block_id : Nat
  warps : List Warp
  shared_memory : SharedMemory
  state : ExecutionState
  grid_x : Nat
  grid_y : Nat
  grid_z : Nat
  completed : Bool
deriving DecidableEq, Repr

/-- `ThreadBlock::ThreadBlock(bid, num_threads)`: `ceil(num_threads / 32)`
warps, warp `i` holding `min(WARP_SIZE, num_threads - i * WARP_SIZE)`
threads. -/
def ThreadBlock.create (bid num_threads : Nat) : ThreadBlock :=
  let num_warps := (num_threads + WARP_SIZE - 1) / WARP_SIZE
  { block_id := bid
    warps := (List.range num_warps).map fun i =>
      Warp.create i bid (min WARP_SIZE (num_threads - i * WARP_SIZE))
    shared_memory := { SharedMemory.create SHARED_MEMORY_PER_BLOCK with owner_block := bid }
    state := ExecutionState.READY
    grid_x := 0
    grid_y := 0
    grid_z := 0
    completed := false }

def ThreadBlock.getNumWarps (b : ThreadBlock) : Nat := b.warps.length

/-- `ThreadBlock::markCompleted()`. -/
def ThreadBlock.markCompleted (b : ThreadBlock) : ThreadBlock :=
  { b with completed := true }

/-! ## Workloads (`workload.h`, the workload implementation file) -/

/-- `KernelConfig`: launch grid and block dimensions. -/
structure KernelConfig where
  grid_dim_x : Nat
  grid_dim_y : Nat
  grid_dim_z : Nat
  block_dim_x : Nat
  block_dim_y : Nat
  block_dim_z : Nat
deriving DecidableEq, Repr

def KernelConfig.getTotalBlocks (c : KernelConfig) : Nat :=
  c.grid_dim_x * c.grid_dim_y * c.grid_dim_z

def KernelConfig.getThreadsPerBlock (c : KernelConfig) : Nat :=
  c.block_dim_x * c.block_dim_y * c.block_dim_z

def KernelConfig.getTotalThreads (c : KernelConfig) : Nat :=
  c.getTotalBlocks * c.getThreadsPerBlock

/-- A workload (kernel): name, kind, launch configuration, priority,
scheduler estimates, and the materialized thread blocks. The two
`high_resolution_clock` timestamps are wall-clock state outside the model. -/
structure Workload where
  name : String
  type : WorkloadType
  config : KernelConfig
  priority : Int
  estimated_instructions : Nat
  estimated_memory_ops : Nat
  completed : Bool
  thread_blocks : List ThreadBlock
deriving DecidableEq, Repr

/-- `Workload::Workload(name, type, config)`. -/
def Workload.create (name : String) (type : WorkloadType) (config : KernelConfig) : Workload :=
  { name := name
    type := type
    config := config
    priority := 0
    estimated_instructions := 0
    estimated_memory_ops := 0
    completed := false
    thread_blocks := [] }

/-- `Workload::generateThreadBlocks()`: discard prior blocks, then produce
`getTotalBlocks()` blocks, block `i` at grid position
`(i % gxy % gx, i % gxy / gx, i / gxy)` with `gxy = gx * gy`. -/
def Workload.generateThreadBlocks (w : Workload) : Workload :=
  { w with thread_blocks :=
      (List.range w.config.getTotalBlocks).map fun i =>
        let block := ThreadBlock.create i w.config.getThreadsPerBlock
        let grid_xy := w.config.grid_dim_x * w.config.grid_dim_y
        { block with
            grid_x := i % grid_xy % w.config.grid_dim_x
            grid_y := i % grid_xy / w.config.grid_dim_x
            grid_z := i / grid_xy } }

/-- `Workload::getNextBlock()`: pop the last block (LIFO), or `none`. -/
def Workload.getNextBlock (w : Workload) : Option ThreadBlock × Workload :=
  match w.thread_blocks.getLast? with
  | none => (none, w)
  | some b => (some b, { w with thread_blocks := w.thread_blocks.dropLast })

/-- `Workload::hasMoreBlocks()`. -/
def Workload.hasMoreBlocks (w : Workload) : Bool :=
  !w.thread_blocks.isEmpty

def Workload.getRemainingBlocks (w : Workload) : Nat :=
  w.thread_blocks.length

/-- `Workload::createMatrixMultiply(M, N, K)`. -/
def Workload.createMatrixMultiply (M N K : Nat) : Workload :=
  let grid_x := (M + 15) / 16
  let grid_y := (N + 15) / 16
  let config : KernelConfig := ⟨grid_x, grid_y, 1, 16, 16, 1⟩
  let w := Workload.create
    ("MatrixMultiply_" ++ toString M ++ "x" ++ toString N ++ "x" ++ toString K)
    WorkloadType.MATRIX_MULTIPLY config
  { w with
      estimated_instructions := M * N * K * 2
      estimated_memory_ops := M * N * (K + 2) }

/-- `Workload::createConvolution(batch, channels, height, width)`. -/
def Workload.createConvolution (batch channels height width : Nat) : Workload :=
  let total_outputs := batch * channels * height * width
  let threads_per_block := 256
  let num_blocks := (total_outputs + threads_per_block - 1) / threads_per_block
  let config : KernelConfig := ⟨num_blocks, 1, 1, threads_per_block, 1, 1⟩
  let w := Workload.create
    ("Convolution_" ++ toString batch ++ "x" ++ toString channels ++ "x"
      ++ toString height ++ "x" ++ toString width)
    WorkloadType.CONVOLUTION config
  { w with
      estimated_instructions := total_outputs * 9 * 2
      estimated_memory_ops := total_outputs * 10 }

/-- `Workload::createVectorAdd(size)`. -/
def Workload.createVectorAdd (size : Nat) : Workload :=
  let threads_per_block := 256
  let num_blocks := (size + threads_per_block - 1) / threads_per_block
  let config : KernelConfig := ⟨num_blocks, 1, 1, threads_per_block, 1, 1⟩
  let w := Workload.create ("VectorAdd_" ++ toString size) WorkloadType.VECTOR_ADD config
  { w with
      estimated_instructions := size * 2
      estimated_memory_ops := size * 3 }

/-- The value of the IEEE `double` obtained from a `size_t` value `n`
(round to nearest, ties to even): exact below `2 ^ 53`, otherwise `n` is
rounded to the nearest multiple of the ulp `2 ^ (log2 n - 52)` of its
binade, a tie going to the even significand. The result is always an
integer, which is how it is returned. -/
def roundToDouble (n : Nat) : Nat :=
  if n < 2 ^ 53 then n
  else
    let e := n.log2 - 52
    let q := n / 2 ^ e
    let r := n % 2 ^ e
    if r * 2 < 2 ^ e then q * 2 ^ e
    else if r * 2 > 2 ^ e then (q + 1) * 2 ^ e
    else if q % 2 = 0 then q * 2 ^ e else (q + 1) * 2 ^ e

/-- `Workload::createReduction(size)`. The step count in the source is
`static_cast<size_t>(std::log2(size))`, a three-stage `double` pipeline:
the `size_t` value is converted to `double` (modelled exactly by
`roundToDouble`), then `std::log2` is applied and the result truncated back
to `size_t` (modelled as the integer base-2 logarithm of the converted
value). The log₂-stage model is provably what any faithfully rounded
`log2` produces on a power of two and on every argument below `2 ^ 47`;
for an argument between `2 ^ 47` and `2 ^ 53` lying just below a power of
two, a faithfully rounded `log2` can land on the next integer where this
model still yields the floor — no theorem below quantifies over that
region. -/
def Workload.createReduction (size : Nat) : Workload :=
  let threads_per_block := 256
  let num_blocks := (size + threads_per_block - 1) / threads_per_block
  let config : KernelConfig := ⟨num_blocks, 1, 1, threads_per_block, 1, 1⟩
  let w := Workload.create ("Reduction_" ++ toString size) WorkloadType.REDUCTION config
  let steps := Nat.log2 (roundToDouble size)
  { w with
      estimated_instructions := size * steps
      estimated_memory_ops := size * 2 }

/-! ## Kernel-level scheduler (`scheduler.h`, `scheduler.cpp`)

The C++ buckets hold `shared_ptr<Workload>` and compare handles by pointer
identity; the embedding holds `Workload` records and compares them with
decidable equality. -/

/-- The three scheduler buckets shared by every policy. -/
structure Scheduler where
  pending_workloads : List Workload
  running_workloads : List Workload
  completed_workloads : List Workload
deriving DecidableEq, Repr

/-- `Scheduler::addWorkload`: append to pending. -/
def Scheduler.addWorkload (s : Scheduler) (w : Workload) : Scheduler :=
  { s with pending_workloads := s.pending_workloads ++ [w] }

/-- `Scheduler::hasPendingWorkloads`. -/
def Scheduler.hasPendingWorkloads (s : Scheduler) : Bool :=
  !s.pending_workloads.isEmpty

/-- `Scheduler::markWorkloadRunning`: move from pending to running when
present, otherwise no effect. -/
def Scheduler.markWorkloadRunning (s : Scheduler) (w : Workload) : Scheduler :=
  if w ∈ s.pending_workloads then
    { s with
        pending_workloads := s.pending_workloads.erase w
        running_workloads := s.running_workloads ++ [w] }
  else s

/-- `Scheduler::markWorkloadCompleted`: move from running to completed when
present, otherwise no effect. -/
def Scheduler.markWorkloadCompleted (s : Scheduler) (w : Workload) : Scheduler :=
  if w ∈ s.running_workloads then
    { s with
        running_workloads := s.running_workloads.erase w
        completed_workloads := s.completed_workloads ++ [w] }
  else s

/-- `FIFOScheduler::getNextWorkload`: take `pending[0]`. -/
def FIFOScheduler.getNextWorkload (s : Scheduler) : Option Workload × Scheduler :=
  match s.pending_workloads with
  | [] => (none, s)
  | w :: rest =>
    (some w, { s with
        pending_workloads := rest
        running_workloads := s.running_workloads ++ [w] })

/-- The scan of `std::max_element` with comparator
`a->getPriority() < b->getPriority()`: the running best moves only on a
strictly greater priority, so the first of equal-priority kernels wins. -/
def maxByPriority (best : Workload) : List Workload → Workload
  | [] => best
  | w :: rest => maxByPriority (if best.priority < w.priority then w else best) rest

/-- `PriorityScheduler::getNextWorkload`: remove the kernel `max_element`
finds (the first one of maximal priority). -/
def PriorityScheduler.getNextWorkload (s : Scheduler) : Option Workload × Scheduler :=
  match s.pending_workloads with
  | [] => (none, s)
  | w :: rest =>
    let m := maxByPriority w rest
    (some m, { s with
        pending_workloads := s.pending_workloads.erase m
        running_workloads := s.running_workloads ++ [m] })

/-- The scan of `std::min_element` with comparator
`a->getEstimatedInstructions() < b->getEstimatedInstructions()`. -/
def minByEstimatedInstructions (best : Workload) : List Workload → Workload
  | [] => best
  | w :: rest =>
    minByEstimatedInstructions
      (if w.estimated_instructions < best.estimated_instructions then w else best) rest

/-- `ShortestJobFirstScheduler::getNextWorkload`. -/
def ShortestJobFirstScheduler.getNextWorkload (s : Scheduler) : Option Workload × Scheduler :=
  match s.pending_workloads with
  | [] => (none, s)
  | w :: rest =>
    let m := minByEstimatedInstructions w rest
    (some m, { s with
        pending_workloads := s.pending_workloads.erase m
        running_workloads := s.running_workloads ++ [m] })

/-- The round-robin scheduler carries its cursor `current_index_`
(initialized to 0) on top of the shared buckets. -/
structure RoundRobinScheduler extends Scheduler where
  current_index : Nat
deriving DecidableEq, Repr

/-- `RoundRobinScheduler::getNextWorkload`: `current_index_ %= len`, take and
erase `pending[current_index_]`; the cursor keeps that reduced value (the
source never advances it). -/
def RoundRobinScheduler.getNextWorkload (s : RoundRobinScheduler) :
    Option Workload × RoundRobinScheduler :=
  if h : s.pending_workloads = [] then
    (none, s)
  else
    let idx := s.current_index % s.pending_workloads.length
    let w := s.pending_workloads.get
      ⟨idx, Nat.mod_lt _ (List.length_pos.mpr h)⟩
    (some w,
      { toScheduler := { s.toScheduler with
          pending_workloads := s.pending_workloads.eraseIdx idx
          running_workloads := s.running_workloads ++ [w] }
        current_index := idx })

/-! ### Operation sequences over the buckets

`SchedOp` ranges over every mutating entry point of the scheduler interface,
under any of the four policies; the round-robin cursor is carried along so
that all policies act on one state type. -/

inductive SchedOp where
  | add (w : Workload)
  | getFIFO
  | getPriority
  | getRoundRobin
  | getSJF
  | markRunning (w : Workload)
  | markCompleted (w : Workload)

def SchedOp.isAdd : SchedOp → Bool
  | .add _ => true
  | _ => false

def SchedOp.apply (s : RoundRobinScheduler) : SchedOp → RoundRobinScheduler
  | .add w => { s with toScheduler := s.toScheduler.addWorkload w }
  | .getFIFO => { s with toScheduler := (FIFOScheduler.getNextWorkload s.toScheduler).snd }
  | .getPriority => { s with toScheduler := (PriorityScheduler.getNextWorkload s.toScheduler).snd }
  | .getRoundRobin => (RoundRobinScheduler.getNextWorkload s).snd
  | .getSJF => { s with toScheduler := (ShortestJobFirstScheduler.getNextWorkload s.toScheduler).snd }
  | .markRunning w => { s with toScheduler := s.toScheduler.markWorkloadRunning w }
  | .markCompleted w => { s with toScheduler := s.toScheduler.markWorkloadCompleted w }

/-- The empty scheduler (all policies start with empty buckets; the
round-robin cursor starts at 0). -/
def initScheduler : RoundRobinScheduler :=
  { pending_workloads := [], running_workloads := [], completed_workloads := []
    current_index := 0 }

/-- `|pending| + |running| + |completed|`. -/
def Scheduler.bucketsSum (s : Scheduler) : Nat :=
  s.pending_workloads.length + s.running_workloads.length + s.completed_workloads.length

/-! ### The §8 seed test

Kernels `A (prio=1, est=1000)`, `B (prio=5, est=500)`, `C (prio=3, est=200)`,
`D (prio=5, est=900)` submitted in that order. -/

/-- A seed kernel: created with the default `KernelConfig` dimensions
`(1, 1, 1, 256, 1, 1)`, then its priority and estimate are set. -/
def seedKernel (name : String) (prio : Int) (est : Nat) : Workload :=
  { Workload.create name WorkloadType.CUSTOM ⟨1, 1, 1, 256, 1, 1⟩ with
      priority := prio
      estimated_instructions := est }

def seedA : Workload := seedKernel "A" 1 1000
def seedB : Workload := seedKernel "B" 5 500
def seedC : Workload := seedKernel "C" 3 200
def seedD : Workload := seedKernel "D" 5 900

/-- The bucket state after submitting the four seed kernels in order. -/
def seedScheduler : Scheduler :=
  ((((Scheduler.mk [] [] []).addWorkload seedA).addWorkload
      seedB).addWorkload seedC).addWorkload seedD

/-- A freshly constructed round-robin scheduler after the four seed
submissions. -/
def rrSeedScheduler : RoundRobinScheduler :=
  { toScheduler := seedScheduler, current_index := 0 }

/-- `n` successive `getNextWorkload` calls on the priority scheduler. -/
def drainPriority : Nat → Scheduler → List (Option Workload)
  | 0, _ => []
  | n + 1, s =>
    let r := PriorityScheduler.getNextWorkload s
    r.fst :: drainPriority n r.snd

/-- `n` successive `getNextWorkload` calls on the round-robin scheduler. -/
def drainRoundRobin : Nat → RoundRobinScheduler → List (Option Workload)
  | 0, _ => []
  | n + 1, s =>
    let r := RoundRobinScheduler.getNextWorkload s
    r.fst :: drainRoundRobin n r.snd

/-! ## Compute unit and warp scheduler (`compute_unit.h`, the compute-unit
implementation file)

The C++ ready queue stores `Warp*` pointers into the blocks held by the CU;
the embedding stores the warp records themselves, and operations that mutate
a warp through its pointer return the warp's final value. -/

/-- A compute unit together with its embedded warp scheduler
(`ready_queue` / `max_warps`) and its shared memory controller. -/
structure ComputeUnit where
  core_id : Nat
  active_blocks : List ThreadBlock
  ready_queue : List Warp
  max_warps : Nat
  max_warps_per_cu : Nat
  max_threads_per_cu : Nat
  max_blocks_per_cu : Nat
  state : ExecutionState
  cycles_executed : Nat
  instructions_executed : Nat
  warps_executed : Nat
  idle_cycles : Nat
  cycles_stalled : Nat
  memory_controller : MemoryController
deriving DecidableEq, Repr

/-- `ComputeUnit::ComputeUnit(id, mem_ctrl)`: warp scheduler bounded at 64,
limits 64 warps / 2048 threads / 16 blocks, state Idle, zeroed counters. -/
def ComputeUnit.create (id : Nat) (mem_ctrl : MemoryController) : ComputeUnit :=
  { core_id := id
    active_blocks := []
    ready_queue := []
    max_warps := 64
    max_warps_per_cu := 64
    max_threads_per_cu := 2048
    max_blocks_per_cu := 16
    state := ExecutionState.IDLE
    cycles_executed := 0
    instructions_executed := 0
    warps_executed := 0
    idle_cycles := 0
    cycles_stalled := 0
    memory_controller := mem_ctrl }

/-- `WarpScheduler::addWarp`: reject when the queue is full or the warp is
not Ready, else append. -/
def ComputeUnit.addWarp (cu : ComputeUnit) (w : Warp) : ComputeUnit × Bool :=
  if cu.ready_queue.length ≥ cu.max_warps then
    (cu, false)
  else if w.state = ExecutionState.READY then
    ({ cu with ready_queue := cu.ready_queue ++ [w] }, true)
  else
    (cu, false)

/-- `WarpScheduler::getNextWarp`: pop the head, or `none`. -/
def ComputeUnit.getNextWarp (cu : ComputeUnit) : Option Warp × ComputeUnit :=
  match cu.ready_queue with
  | [] => (none, cu)
  | w :: rest => (some w, { cu with ready_queue := rest })

/-- `ComputeUnit::getActiveWarpCount`: sum of warp counts over active
blocks. -/
def ComputeUnit.getActiveWarpCount (cu : ComputeUnit) : Nat :=
  (cu.active_blocks.map ThreadBlock.getNumWarps).sum

/-- `ComputeUnit::canAcceptBlock`: block count below `max_blocks_per_cu` and
enough warp slots left. -/
def ComputeUnit.canAcceptBlock (cu : ComputeUnit) (block : ThreadBlock) : Bool :=
  if cu.active_blocks.length ≥ cu.max_blocks_per_cu then
    false
  else if cu.getActiveWarpCount + block.getNumWarps > cu.max_warps_per_cu then
    false
  else
    true

/-- The warp-offering loop of `ComputeUnit::assignBlock`: each warp of the
block is offered to the warp scheduler (a failed add drops the warp). -/
def ComputeUnit.offerWarps (cu : ComputeUnit) (block : ThreadBlock) : ComputeUnit :=
  block.warps.foldl (fun c w => (c.addWarp w).fst) cu

/-- `ComputeUnit::assignBlock`: re-test admission, then offer every warp to
the warp scheduler, append the block and move to Running. -/
def ComputeUnit.assignBlock (cu : ComputeUnit) (block : ThreadBlock) : ComputeUnit × Bool :=
  if cu.canAcceptBlock block then
    let cu2 := cu.offerWarps block
    ({ cu2 with
        active_blocks := cu2.active_blocks ++ [block]
        state := ExecutionState.RUNNING }, true)
  else
    (cu, false)

/-- One step `i` of the instruction loop of `ComputeUnit::executeWarp`. -/
def ComputeUnit.execStep (p : ComputeUnit × Warp) (i : Nat) : ComputeUnit × Warp :=
  let cu := p.fst
  let w := p.snd
  let w := { w with
      instructions_executed := w.instructions_executed + 1
      program_counter := w.program_counter + 1 }
  let cu := { cu with instructions_executed := cu.instructions_executed + 1 }
  if i % 5 = 0 then
    let cu := { cu with memory_controller := cu.memory_controller.recordMemoryOp }
    if i % 10 = 0 then
      let w := { w with
          state := ExecutionState.MEMORY_STALLED
          cycles_stalled := w.cycles_stalled + 1 }
      let cu := { cu with
          cycles_stalled := cu.cycles_stalled + 1
          cycles_executed := cu.cycles_executed +
            cu.memory_controller.global_memory.latency_cycles / 10 }
      (cu, { w with state := ExecutionState.RUNNING })
    else
      (cu, w)
  else
    (cu, w)

/-- `ComputeUnit::executeWarp(warp, num_instructions)`: Running, the
instruction loop, then Ready and one more executed warp. Returns the unit
and the final value of the warp object. -/
def ComputeUnit.executeWarp (cu : ComputeUnit) (w : Warp) (num_instructions : Nat) :
    ComputeUnit × Warp :=
  let w := { w with state := ExecutionState.RUNNING }
  let p := (List.range num_instructions).foldl ComputeUnit.execStep (cu, w)
  ({ p.fst with warps_executed := p.fst.warps_executed + 1 },
    { p.snd with state := ExecutionState.READY })

/-- The block-completion sweep of `ComputeUnit::simulateCycle`: mark every
active block all of whose warps are Completed. -/
def sweepCompletedBlocks (blocks : List ThreadBlock) : List ThreadBlock :=
  blocks.map fun b =>
    if b.warps.all fun w => decide (w.state = ExecutionState.COMPLETED) then
      b.markCompleted
    else b

/-- `ComputeUnit::simulateCycle`: count the cycle; fetch a warp or count an
idle cycle; execute a batch of 8 instructions; then complete (at ≥ 1000
cumulative instructions, with the block sweep) or re-queue the warp. The
second component is the final value of the fetched warp, if any. -/
def ComputeUnit.simulateCycle (cu0 : ComputeUnit) : ComputeUnit × Option Warp :=
  let cu1 := { cu0 with cycles_executed := cu0.cycles_executed + 1 }
  match cu1.getNextWarp with
  | (none, cu2) => ({ cu2 with idle_cycles := cu2.idle_cycles + 1 }, none)
  | (some w, cu2) =>
    let p := cu2.executeWarp w 8
    let cu3 := p.fst
    let w3 := p.snd
    if w3.instructions_executed ≥ 1000 then
      let w4 := { w3 with state := ExecutionState.COMPLETED }
      ({ cu3 with active_blocks := sweepCompletedBlocks cu3.active_blocks }, some w4)
    else
      ((cu3.addWarp w3).fst, some w3)

/-- `ComputeUnit::removeCompletedBlocks`: drop completed blocks; Idle when
none remain. -/
def ComputeUnit.removeCompletedBlocks (cu : ComputeUnit) : ComputeUnit :=
  let remaining := cu.active_blocks.filter fun b => !b.completed
  { cu with
      active_blocks := remaining
      state := if remaining.isEmpty then ExecutionState.IDLE else cu.state }

/-! ## Metrics analyzer (`metrics.h`, the metrics implementation file) -/

/-- Per-workload metrics record. `execution_time_ms`, utilization and
throughput are `double` in the source; only their ordering is ever used, so
they are embedded as `Rat`. -/
structure WorkloadMetrics where
  workload_name : String
  type : WorkloadType
  execution_time_ms : Rat
  instructions_executed : Nat
  memory_operations : Nat
  cycles_executed : Nat
  average_cu_utilization : Rat
  total_threads : Nat
  total_blocks : Nat
  throughput : Rat
deriving DecidableEq, Repr

/-- `WorkloadMetrics{}` value-initialization: empty name, the kind of
ordinal 0, and zeroes everywhere. -/
def WorkloadMetrics.init : WorkloadMetrics :=
  { workload_name := ""
    type := WorkloadType.MATRIX_MULTIPLY
    execution_time_ms := 0
    instructions_executed := 0
    memory_operations := 0
    cycles_executed := 0
    average_cu_utilization := 0
    total_threads := 0
    total_blocks := 0
    throughput := 0 }

/-- The analyzer state read by `getFastestWorkload` / `getSlowestWorkload`:
the recorded per-workload metrics (the device-wide record and the two
simulation timestamps are not consulted by them). -/
structure PerformanceAnalyzer where
  workload_metrics : List WorkloadMetrics
deriving DecidableEq, Repr

/-- `PerformanceAnalyzer::getFastestWorkload`: a value-initialized record on
an empty history, else `std::min_element` by `execution_time_ms` (the
running best moves only on strictly smaller, keeping the earliest of
ties). -/
def PerformanceAnalyzer.getFastestWorkload (a : PerformanceAnalyzer) : WorkloadMetrics :=
  match a.workload_metrics with
  | [] => WorkloadMetrics.init
  | m :: rest =>
    rest.foldl
      (fun best x => if x.execution_time_ms < best.execution_time_ms then x else best) m

/-- `PerformanceAnalyzer::getSlowestWorkload`: a value-initialized record on
an empty history, else `std::max_element` by `execution_time_ms`. -/
def PerformanceAnalyzer.getSlowestWorkload (a : PerformanceAnalyzer) : WorkloadMetrics :=
  match a.workload_metrics with
  | [] => WorkloadMetrics.init
  | m :: rest =>
    rest.foldl
      (fun best x => if best.execution_time_ms < x.execution_time_ms then x else best) m

/-- A one-block workload used to exercise the block hand-out. -/
def witnessOneBlock : Workload :=
  { Workload.create "witness" WorkloadType.CUSTOM ⟨1, 1, 1, 1, 1, 1⟩ with
      thread_blocks := [ThreadBlock.create 0 1] }

/-! # Theorems -/

/-! ## C9: global-memory bounds checking -/

/-- Claim C9 counterexample: the guard `address + bytes > size_` is computed
in `size_t`, so it wraps: `read(2^64 - 1, 2)` succeeds on a 1 KiB memory even
though the true sum exceeds the size, refuting the claimed
`addr + bytes ≤ size` success condition. -/
theorem globalMemory_read_bounds_overflow :
    (((GlobalMemory.create 1024).read (2 ^ 64 - 1) 2).fst = true) ∧
    ¬((2 ^ 64 - 1) + 2 ≤ (GlobalMemory.create 1024).size) := by
  constructor
  · decide
  · decide

/-- Claim C9 (amended): `read` and `write` succeed iff the 64-bit wrapped sum
`(addr + bytes) % 2^64` is at most the size; on success exactly the access
counter, the direction counter and the direction byte total advance; on
failure the memory is unchanged; and whenever `addr + bytes` does not
overflow the claimed condition `addr + bytes ≤ size` governs success as
stated. -/
theorem globalMemory_read_write_spec (m : GlobalMemory) (address bytes : Nat) :
    ((m.read address bytes).fst = true ↔ (address + bytes) % SIZE_T_MOD ≤ m.size) ∧
    ((m.write address bytes).fst = true ↔ (address + bytes) % SIZE_T_MOD ≤ m.size) ∧
    ((m.read address bytes).fst = true →
      (m.read address bytes).snd = { m with
        access_count := m.access_count + 1
        read_count := m.read_count + 1
        bytes_read := m.bytes_read + bytes }) ∧
    ((m.read address bytes).fst = false → (m.read address bytes).snd = m) ∧
    ((m.write address bytes).fst = true →
      (m.write address bytes).snd = { m with
        access_count := m.access_count + 1
        write_count := m.write_count + 1
        bytes_written := m.bytes_written + bytes }) ∧
    ((m.write address bytes).fst = false → (m.write address bytes).snd = m) ∧
    (address + bytes < SIZE_T_MOD →
      ((m.read address bytes).fst = true ↔ address + bytes ≤ m.size)) := by
  unfold GlobalMemory.read GlobalMemory.write SIZE_T_MOD
  refine ⟨?_, ?_, ?_, ?_, ?_, ?_, ?_⟩ <;> split <;> simp_all <;> omega

/-- Witness for C9 at concrete inputs: a successful 8-byte read at address 0
of a 1 KiB memory bumps the counters, and the unwrapped success condition
applies. -/
theorem globalMemory_read_write_spec_witness :
    ((GlobalMemory.create 1024).read 0 8).snd = { GlobalMemory.create 1024 with
      access_count := (GlobalMemory.create 1024).access_count + 1
      read_count := (GlobalMemory.create 1024).read_count + 1
      bytes_read := (GlobalMemory.create 1024).bytes_read + 8 } ∧
    (((GlobalMemory.create 1024).read 0 8).fst = true ↔ 0 + 8 ≤ (GlobalMemory.create 1024).size) :=
  ⟨(globalMemory_read_write_spec (GlobalMemory.create 1024) 0 8).2.2.1 (by decide),
   (globalMemory_read_write_spec (GlobalMemory.create 1024) 0 8).2.2.2.2.2.2 (by decide)⟩

/-! ## C8: LIFO block hand-out -/

/-- Claim C8: `getNextBlock` removes and returns the last materialized block
and changes nothing else, or returns `none` on an empty sequence, and
`hasMoreBlocks` is true exactly when blocks remain. -/
theorem getNextBlock_spec (w : Workload) :
    (w.thread_blocks = [] → w.getNextBlock = (none, w)) ∧
    (∀ bs b, w.thread_blocks = bs ++ [b] →
      w.getNextBlock = (some b, { w with thread_blocks := bs })) ∧
    (w.hasMoreBlocks = true ↔ w.thread_blocks ≠ []) := by
  refine ⟨?_, ?_, ?_⟩
  · intro h
    simp [Workload.getNextBlock, h]
  · intro bs b h
    simp [Workload.getNextBlock, h, List.getLast?_concat, List.dropLast_concat]
  · simp [Workload.hasMoreBlocks, List.isEmpty_iff]

/-- Witness for C8 on a one-block workload. -/
theorem getNextBlock_spec_witness :
    (witnessOneBlock.getNextBlock =
      (some (ThreadBlock.create 0 1), { witnessOneBlock with thread_blocks := [] })) ∧
    (witnessOneBlock.hasMoreBlocks = true ↔ witnessOneBlock.thread_blocks ≠ []) :=
  ⟨(getNextBlock_spec witnessOneBlock).2.1 [] (ThreadBlock.create 0 1) rfl,
   (getNextBlock_spec witnessOneBlock).2.2⟩

/-! ## C6: factory launch shapes and estimates -/

lemma roundToDouble_eq_of_lt (n : Nat) (h : n < 2 ^ 53) : roundToDouble n = n := by
  unfold roundToDouble
  rw [if_pos h]

lemma log2_pow54_pred : Nat.log2 (2 ^ 54 - 1) = 53 := by
  rw [Nat.log2_eq_log_two]
  exact Nat.log_eq_of_pow_le_of_lt_pow (by norm_num) (by norm_num)

/-- `2 ^ 54 - 1` is exactly midway between the two nearest doubles
`2 ^ 54 - 2` and `2 ^ 54`; the tie goes to the even significand, `2 ^ 54`. -/
lemma roundToDouble_pow54_pred : roundToDouble (2 ^ 54 - 1) = 2 ^ 54 := by
  unfold roundToDouble
  rw [if_neg (by norm_num)]
  simp only [log2_pow54_pred]
  norm_num

/-- The reduction estimate, unfolded at an arbitrary size. -/
lemma createReduction_estimated_instructions (size : Nat) :
    (Workload.createReduction size).estimated_instructions =
      size * Nat.log2 (roundToDouble size) := by
  simp only [Workload.createReduction, Workload.create]

/-- Claim C6 counterexample: at `S = 2 ^ 54 - 1` the `size_t` value
converts (round to nearest, ties to even) to the double `2 ^ 54`, whose
`log2` is exactly 54, so the code estimates `S * 54` instructions while the
claimed `S * ⌊log₂ S⌋` is `S * 53`. -/
theorem createReduction_log2_overflow :
    (Workload.createReduction (2 ^ 54 - 1)).estimated_instructions =
      (2 ^ 54 - 1) * 54 ∧
    Nat.log 2 (2 ^ 54 - 1) = 53 ∧
    (Workload.createReduction (2 ^ 54 - 1)).estimated_instructions ≠
      (2 ^ 54 - 1) * Nat.log 2 (2 ^ 54 - 1) := by
  have h54 : Nat.log2 (roundToDouble (2 ^ 54 - 1)) = 54 := by
    rw [roundToDouble_pow54_pred, Nat.log2_eq_log_two]
    exact Nat.log_pow (by norm_num) 54
  have hfloor : Nat.log 2 (2 ^ 54 - 1) = 53 := by
    rw [← Nat.log2_eq_log_two]
    exact log2_pow54_pred
  refine ⟨?_, hfloor, ?_⟩
  · rw [createReduction_estimated_instructions, h54]
  · rw [createReduction_estimated_instructions, h54, hfloor]
    norm_num

/-- Claim C6 (amended): the four factories produce exactly the §4.2 grid
and block shapes and the estimate formulas, with the reduction row
restricted to `1 ≤ S < 2 ^ 47`, the sizes on which the `double` pipeline
behind `std::log2` provably computes `⌊log₂ S⌋` (at larger sizes the
conversion and `log2` rounding can land on `⌊log₂ S⌋ + 1`, as the
counterexample at `2 ^ 54 - 1` shows). -/
theorem workload_factory_estimates (M N K batch channels height width S R : Nat)
    (hR1 : 1 ≤ R) (hR2 : R < 2 ^ 47) :
    ((Workload.createMatrixMultiply M N K).config = ⟨M ⌈/⌉ 16, N ⌈/⌉ 16, 1, 16, 16, 1⟩ ∧
      (Workload.createMatrixMultiply M N K).estimated_instructions = 2 * (M * N * K) ∧
      (Workload.createMatrixMultiply M N K).estimated_memory_ops = M * N * (K + 2)) ∧
    ((Workload.createConvolution batch channels height width).config =
        ⟨(batch * channels * height * width) ⌈/⌉ 256, 1, 1, 256, 1, 1⟩ ∧
      (Workload.createConvolution batch channels height width).estimated_instructions =
        18 * (batch * channels * height * width) ∧
      (Workload.createConvolution batch channels height width).estimated_memory_ops =
        10 * (batch * channels * height * width)) ∧
    ((Workload.createVectorAdd S).config = ⟨S ⌈/⌉ 256, 1, 1, 256, 1, 1⟩ ∧
      (Workload.createVectorAdd S).estimated_instructions = 2 * S ∧
      (Workload.createVectorAdd S).estimated_memory_ops = 3 * S) ∧
    ((Workload.createReduction R).config = ⟨R ⌈/⌉ 256, 1, 1, 256, 1, 1⟩ ∧
      (Workload.createReduction R).estimated_instructions = R * Nat.log 2 R ∧
      (Workload.createReduction R).estimated_memory_ops = 2 * R) := by
  have hsteps : Nat.log2 (roundToDouble R) = Nat.log 2 R := by
    rw [roundToDouble_eq_of_lt R (lt_trans hR2 (by norm_num)), Nat.log2_eq_log_two]
  refine ⟨⟨?_, by simp [Workload.createMatrixMultiply, Workload.create]; ring,
            by simp [Workload.createMatrixMultiply, Workload.create]⟩,
          ⟨?_, by simp [Workload.createConvolution, Workload.create]; ring,
            by simp [Workload.createConvolution, Workload.create]; ring⟩,
          ⟨?_, by simp [Workload.createVectorAdd, Workload.create]; ring,
            by simp [Workload.createVectorAdd, Workload.create]; ring⟩,
          ⟨?_, by simp [Workload.createReduction, Workload.create, hsteps],
            by simp [Workload.createReduction, Workload.create]; ring⟩⟩
  · simp [Workload.createMatrixMultiply, Workload.create, Nat.ceilDiv_eq_add_pred_div]
  · simp [Workload.createConvolution, Workload.create, Nat.ceilDiv_eq_add_pred_div]
  · simp [Workload.createVectorAdd, Workload.create, Nat.ceilDiv_eq_add_pred_div]
  · simp [Workload.createReduction, Workload.create, Nat.ceilDiv_eq_add_pred_div]

/-- Witness for C6: the reduction estimate at `S = 4`. -/
theorem workload_factory_estimates_witness :
    (Workload.createReduction 4).estimated_instructions = 4 * Nat.log 2 4 :=
  (workload_factory_estimates 1 1 1 1 1 1 1 1 4 (by norm_num) (by norm_num)).2.2.2.2.1

/-! ## C10: fastest and slowest workload queries -/

/-- The `std::min_element` scan returns a member attaining the minimum
`execution_time_ms`. -/
lemma foldl_min_time_spec (rest : List WorkloadMetrics) (m : WorkloadMetrics) :
    rest.foldl
        (fun best x => if x.execution_time_ms < best.execution_time_ms then x else best)
        m ∈ m :: rest ∧
    ∀ x ∈ m :: rest,
      (rest.foldl
        (fun best x => if x.execution_time_ms < best.execution_time_ms then x else best)
        m).execution_time_ms ≤ x.execution_time_ms := by
  induction rest generalizing m with
  | nil => simp
  | cons y t ih =>
    simp only [List.foldl_cons]
    by_cases hc : y.execution_time_ms < m.execution_time_ms
    · rw [if_pos hc]
      obtain ⟨hmem, hle⟩ := ih y
      constructor
      · rcases List.mem_cons.mp hmem with h | h
        · rw [h]
          exact List.mem_cons_of_mem _ (List.mem_cons_self _ _)
        · exact List.mem_cons_of_mem _ (List.mem_cons_of_mem _ h)
      · intro x hx
        rcases List.mem_cons.mp hx with rfl | hx
        · exact le_trans (hle y (List.mem_cons_self _ _)) (le_of_lt hc)
        · exact hle x hx
    · rw [if_neg hc]
      obtain ⟨hmem, hle⟩ := ih m
      constructor
      · rcases List.mem_cons.mp hmem with h | h
        · rw [h]
          exact List.mem_cons_self _ _
        · exact List.mem_cons_of_mem _ (List.mem_cons_of_mem _ h)
      · intro x hx
        rcases List.mem_cons.mp hx with rfl | hx
        · exact hle x (List.mem_cons_self _ _)
        · rcases List.mem_cons.mp hx with rfl | hx
          · exact le_trans (hle m (List.mem_cons_self _ _)) (not_lt.mp hc)
          · exact hle x (List.mem_cons_of_mem _ hx)

/-- The `std::max_element` scan returns a member attaining the maximum
`execution_time_ms`. -/
lemma foldl_max_time_spec (rest : List WorkloadMetrics) (m : WorkloadMetrics) :
    rest.foldl
        (fun best x => if best.execution_time_ms < x.execution_time_ms then x else best)
        m ∈ m :: rest ∧
    ∀ x ∈ m :: rest,
      x.execution_time_ms ≤
        (rest.foldl
          (fun best x => if best.execution_time_ms < x.execution_time_ms then x else best)
          m).execution_time_ms := by
  induction rest generalizing m with
  | nil => simp
  | cons y t ih =>
    simp only [List.foldl_cons]
    by_cases hc : m.execution_time_ms < y.execution_time_ms
    · rw [if_pos hc]
      obtain ⟨hmem, hle⟩ := ih y
      constructor
      · rcases List.mem_cons.mp hmem with h | h
        · rw [h]
          exact List.mem_cons_of_mem _ (List.mem_cons_self _ _)
        · exact List.mem_cons_of_mem _ (List.mem_cons_of_mem _ h)
      · intro x hx
        rcases List.mem_cons.mp hx with rfl | hx
        · exact le_trans (le_of_lt hc) (hle y (List.mem_cons_self _ _))
        · exact hle x hx
    · rw [if_neg hc]
      obtain ⟨hmem, hle⟩ := ih m
      constructor
      · rcases List.mem_cons.mp hmem with h | h
        · rw [h]
          exact List.mem_cons_self _ _
        · exact List.mem_cons_of_mem _ (List.mem_cons_of_mem _ h)
      · intro x hx
        rcases List.mem_cons.mp hx with rfl | hx
        · exact hle x (List.mem_cons_self _ _)
        · rcases List.mem_cons.mp hx with rfl | hx
          · exact le_trans (not_lt.mp hc) (hle m (List.mem_cons_self _ _))
          · exact hle x (List.mem_cons_of_mem _ hx)

/-- Claim C10: with no recorded workloads both queries return the
value-initialized record; otherwise they return a recorded element of
minimal (respectively maximal) `execution_time_ms`. -/
theorem fastest_slowest_workload_spec (a : PerformanceAnalyzer) :
    (a.workload_metrics = [] →
      a.getFastestWorkload = WorkloadMetrics.init ∧
      a.getSlowestWorkload = WorkloadMetrics.init) ∧
    (a.workload_metrics ≠ [] →
      (a.getFastestWorkload ∈ a.workload_metrics ∧
        ∀ x ∈ a.workload_metrics,
          a.getFastestWorkload.execution_time_ms ≤ x.execution_time_ms) ∧
      (a.getSlowestWorkload ∈ a.workload_metrics ∧
        ∀ x ∈ a.workload_metrics,
          x.execution_time_ms ≤ a.getSlowestWorkload.execution_time_ms)) := by
  constructor
  · intro h
    constructor <;>
      simp [PerformanceAnalyzer.getFastestWorkload, PerformanceAnalyzer.getSlowestWorkload, h]
  · intro h
    match hm : a.workload_metrics with
    | [] => exact absurd hm h
    | m :: rest =>
      constructor
      · have := foldl_min_time_spec rest m
        rw [PerformanceAnalyzer.getFastestWorkload, hm]
        exact this
      · have := foldl_max_time_spec rest m
        rw [PerformanceAnalyzer.getSlowestWorkload, hm]
        exact this

/-- Two sample metric records to exercise the queries. -/
def sampleAnalyzer : PerformanceAnalyzer :=
  ⟨[{ WorkloadMetrics.init with workload_name := "w1", execution_time_ms := 3 },
    { WorkloadMetrics.init with workload_name := "w2", execution_time_ms := 2 }]⟩

/-- Witness for C10 on a two-record history. -/
theorem fastest_slowest_workload_spec_witness :
    (sampleAnalyzer.getFastestWorkload ∈ sampleAnalyzer.workload_metrics ∧
      ∀ x ∈ sampleAnalyzer.workload_metrics,
        sampleAnalyzer.getFastestWorkload.execution_time_ms ≤ x.execution_time_ms) ∧
    (sampleAnalyzer.getSlowestWorkload ∈ sampleAnalyzer.workload_metrics ∧
      ∀ x ∈ sampleAnalyzer.workload_metrics,
        x.execution_time_ms ≤ sampleAnalyzer.getSlowestWorkload.execution_time_ms) :=
  (fastest_slowest_workload_spec sampleAnalyzer).2 (by simp [sampleAnalyzer])

/-! ## C4: priority scheduling -/

/-- The `std::max_element` scan splits the list around its result: everything
before it has strictly smaller priority (so the earliest of the maxima wins)
and nothing exceeds it. -/
lemma maxByPriority_spec (l : List Workload) (best : Workload) :
    ∃ l1 l2,
      best :: l = l1 ++ maxByPriority best l :: l2 ∧
      (∀ x ∈ l1, x.priority < (maxByPriority best l).priority) ∧
      (∀ x ∈ best :: l, x.priority ≤ (maxByPriority best l).priority) := by
  induction l generalizing best with
  | nil =>
    exact ⟨[], [], by simp [maxByPriority], by simp, by simp [maxByPriority]⟩
  | cons w rest ih =>
    rw [maxByPriority]
    by_cases hc : best.priority < w.priority
    · rw [if_pos hc]
      obtain ⟨l1, l2, hdecomp, hlt, hle⟩ := ih w
      refine ⟨best :: l1, l2, ?_, ?_, ?_⟩
      · rw [List.cons_append, ← hdecomp]
      · intro x hx
        rcases List.mem_cons.mp hx with rfl | hx
        · exact lt_of_lt_of_le hc (hle w (List.mem_cons_self _ _))
        · exact hlt x hx
      · intro x hx
        rcases List.mem_cons.mp hx with rfl | hx
        · exact le_of_lt (lt_of_lt_of_le hc (hle w (List.mem_cons_self _ _)))
        · exact hle x hx
    · rw [if_neg hc]
      obtain ⟨l1, l2, hdecomp, hlt, hle⟩ := ih best
      cases l1 with
      | nil =>
        simp only [List.nil_append] at hdecomp
        have hbest : maxByPriority best rest = best := (List.cons.injEq _ _ _ _).mp hdecomp |>.1.symm
        refine ⟨[], w :: rest, ?_, by simp, ?_⟩
        · rw [List.nil_append, hbest]
        · intro x hx
          rcases List.mem_cons.mp hx with rfl | hx
          · exact hle x (List.mem_cons_self _ _)
          · rcases List.mem_cons.mp hx with rfl | hx
            · rw [hbest]
              exact not_lt.mp hc
            · exact hle x (List.mem_cons_of_mem _ hx)
      | cons y l1t =>
        have hy : y = best := by
          have := congrArg (fun t => t.head?) hdecomp
          simpa using this.symm
        have hrest : rest = l1t ++ maxByPriority best rest :: l2 := by
          have := congrArg (fun t => t.tail) hdecomp
          simpa using this
        have hbestmem : best ∈ y :: l1t := by
          rw [hy]
          exact List.mem_cons_self _ _
        refine ⟨best :: w :: l1t, l2, ?_, ?_, ?_⟩
        · simp only [List.cons_append]
          exact congrArg (fun t => best :: w :: t) hrest
        · intro x hx
          rcases List.mem_cons.mp hx with rfl | hx
          · exact hlt x hbestmem
          · rcases List.mem_cons.mp hx with rfl | hx
            · exact lt_of_le_of_lt (not_lt.mp hc) (hlt best hbestmem)
            · exact hlt x (List.mem_cons_of_mem _ hx)
        · intro x hx
          rcases List.mem_cons.mp hx with rfl | hx
          · exact hle x (List.mem_cons_self _ _)
          · rcases List.mem_cons.mp hx with rfl | hx
            · exact le_trans (not_lt.mp hc) (hle best (List.mem_cons_self _ _))
            · exact hle x (List.mem_cons_of_mem _ hx)

/-- Claim C4: `PriorityScheduler::getNextWorkload` removes and returns a
pending kernel of maximal priority, the earliest-submitted one among ties,
and moves it to running; on the §8 seed the four calls dispatch B, D, C, A. -/
theorem priority_getNextWorkload_spec :
    (∀ (s : Scheduler) (p : Workload) (rest : List Workload),
      s.pending_workloads = p :: rest →
      ∃ m l1 l2,
        PriorityScheduler.getNextWorkload s =
          (some m, { s with
              pending_workloads := l1 ++ l2
              running_workloads := s.running_workloads ++ [m] }) ∧
        s.pending_workloads = l1 ++ m :: l2 ∧
        (∀ x ∈ l1, x.priority < m.priority) ∧
        (∀ x ∈ s.pending_workloads, x.priority ≤ m.priority)) ∧
    drainPriority 4 seedScheduler = [some seedB, some seedD, some seedC, some seedA] := by
  constructor
  · intro s p rest h
    obtain ⟨l1, l2, hdecomp, hlt, hle⟩ := maxByPriority_spec rest p
    refine ⟨maxByPriority p rest, l1, l2, ?_, by rw [h]; exact hdecomp, hlt,
      by rw [h]; exact hle⟩
    have hnotin : maxByPriority p rest ∉ l1 := fun hx => absurd (hlt _ hx) (lt_irrefl _)
    have herase : (p :: rest).erase (maxByPriority p rest) = l1 ++ l2 := by
      rw [hdecomp, List.erase_append_right _ hnotin, List.erase_cons_head]
    unfold PriorityScheduler.getNextWorkload
    rw [h]
    simp only [herase]
  · decide

/-- Witness for C4: the general statement instantiated on the seed bucket
state. -/
theorem priority_getNextWorkload_spec_witness :
    ∃ m l1 l2,
      PriorityScheduler.getNextWorkload seedScheduler =
        (some m, { seedScheduler with
            pending_workloads := l1 ++ l2
            running_workloads := seedScheduler.running_workloads ++ [m] }) ∧
      seedScheduler.pending_workloads = l1 ++ m :: l2 ∧
      (∀ x ∈ l1, x.priority < m.priority) ∧
      (∀ x ∈ seedScheduler.pending_workloads, x.priority ≤ m.priority) :=
  priority_getNextWorkload_spec.1 seedScheduler seedA [seedB, seedC, seedD] rfl

/-! ## C1: round-robin scheduling -/

/-- Claim C1 counterexample: the §8 seed under the round-robin scheduler
dispatches A, B, C, D — `current_index_` is reduced modulo the length but
never advanced, so every call takes the front — refuting the claimed order
A, C, D, B. -/
theorem roundRobin_seed_refutes_claimed_order :
    drainRoundRobin 4 rrSeedScheduler =
      [some seedA, some seedB, some seedC, some seedD] ∧
    drainRoundRobin 4 rrSeedScheduler ≠
      [some seedA, some seedC, some seedD, some seedB] := by
  constructor
  · decide
  · decide

/-- Claim C1 (amended): on a non-empty pending list `getNextWorkload`
removes and returns `pending[cursor % len]`, moves it to running and stores
the reduced value `cursor % len` back in the cursor; since the cursor starts
at 0 and is never advanced, every call takes the current front, and the §8
seed dispatches A, B, C, D. -/
theorem roundRobin_getNextWorkload_spec :
    (∀ (s : RoundRobinScheduler), s.pending_workloads ≠ [] →
      RoundRobinScheduler.getNextWorkload s =
        (s.pending_workloads[s.current_index % s.pending_workloads.length]?,
          { toScheduler := { s.toScheduler with
              pending_workloads :=
                s.pending_workloads.eraseIdx (s.current_index % s.pending_workloads.length)
              running_workloads := s.running_workloads ++
                (s.pending_workloads[s.current_index % s.pending_workloads.length]?).toList }
            current_index := s.current_index % s.pending_workloads.length })) ∧
    drainRoundRobin 4 rrSeedScheduler =
      [some seedA, some seedB, some seedC, some seedD] := by
  constructor
  · intro s h
    unfold RoundRobinScheduler.getNextWorkload
    rw [dif_neg h]
    have hlt : s.current_index % s.pending_workloads.length < s.pending_workloads.length :=
      Nat.mod_lt _ (List.length_pos.mpr h)
    simp [List.getElem?_eq_getElem hlt]
  · decide

/-- Witness for C1 on the seed state. -/
theorem roundRobin_getNextWorkload_spec_witness :
    RoundRobinScheduler.getNextWorkload rrSeedScheduler =
      (rrSeedScheduler.pending_workloads[rrSeedScheduler.current_index %
          rrSeedScheduler.pending_workloads.length]?,
        { toScheduler := { rrSeedScheduler.toScheduler with
            pending_workloads := rrSeedScheduler.pending_workloads.eraseIdx
              (rrSeedScheduler.current_index % rrSeedScheduler.pending_workloads.length)
            running_workloads := rrSeedScheduler.running_workloads ++
              (rrSeedScheduler.pending_workloads[rrSeedScheduler.current_index %
                rrSeedScheduler.pending_workloads.length]?).toList }
          current_index := rrSeedScheduler.current_index %
            rrSeedScheduler.pending_workloads.length }) :=
  roundRobin_getNextWorkload_spec.1 rrSeedScheduler (by decide)

/-! ## C5: bucket-count invariant -/

/-- `min_element` returns a member of the scanned list. -/
lemma minByEstimatedInstructions_mem (l : List Workload) (best : Workload) :
    minByEstimatedInstructions best l ∈ best :: l := by
  induction l generalizing best with
  | nil => simp [minByEstimatedInstructions]
  | cons w rest ih =>
    rw [minByEstimatedInstructions]
    have h := ih (if w.estimated_instructions < best.estimated_instructions then w else best)
    rcases List.mem_cons.mp h with h1 | h1
    · rw [h1]
      split
      · exact List.mem_cons_of_mem _ (List.mem_cons_self _ _)
      · exact List.mem_cons_self _ _
    · exact List.mem_cons_of_mem _ (List.mem_cons_of_mem _ h1)

/-- `max_element` returns a member of the scanned list. -/
lemma maxByPriority_mem (l : List Workload) (best : Workload) :
    maxByPriority best l ∈ best :: l := by
  obtain ⟨l1, l2, hdecomp, -, -⟩ := maxByPriority_spec l best
  rw [hdecomp]
  exact List.mem_append_right _ (List.mem_cons_self _ _)

/-- Every scheduler operation changes the total bucket count by exactly the
number of kernels it submits: one for `addWorkload`, zero otherwise. -/
lemma bucketsSum_apply (s : RoundRobinScheduler) (op : SchedOp) :
    ((op.apply s).toScheduler.bucketsSum : Nat) =
      s.toScheduler.bucketsSum + (if op.isAdd then 1 else 0) := by
  cases op with
  | add w =>
    simp [SchedOp.apply, SchedOp.isAdd, Scheduler.addWorkload, Scheduler.bucketsSum]
    omega
  | getFIFO =>
    rcases h : s.toScheduler.pending_workloads with _ | ⟨w, rest⟩ <;>
      simp [SchedOp.apply, SchedOp.isAdd, FIFOScheduler.getNextWorkload, h,
        Scheduler.bucketsSum] <;>
      omega
  | getPriority =>
    rcases h : s.toScheduler.pending_workloads with _ | ⟨w, rest⟩ <;>
      simp [SchedOp.apply, SchedOp.isAdd, PriorityScheduler.getNextWorkload, h,
        Scheduler.bucketsSum]
    have hmem : maxByPriority w rest ∈ w :: rest := maxByPriority_mem rest w
    have hlen := List.length_erase_add_one hmem
    simp at hlen ⊢
    omega
  | getSJF =>
    rcases h : s.toScheduler.pending_workloads with _ | ⟨w, rest⟩ <;>
      simp [SchedOp.apply, SchedOp.isAdd, ShortestJobFirstScheduler.getNextWorkload, h,
        Scheduler.bucketsSum]
    have hmem : minByEstimatedInstructions w rest ∈ w :: rest :=
      minByEstimatedInstructions_mem rest w
    have hlen := List.length_erase_add_one hmem
    simp at hlen ⊢
    omega
  | getRoundRobin =>
    by_cases h : s.pending_workloads = []
    · simp [SchedOp.apply, SchedOp.isAdd, RoundRobinScheduler.getNextWorkload, h]
    · have hlt : s.current_index % s.pending_workloads.length < s.pending_workloads.length :=
        Nat.mod_lt _ (List.length_pos.mpr h)
      have hlen := List.length_eraseIdx_add_one hlt
      simp [SchedOp.apply, SchedOp.isAdd, RoundRobinScheduler.getNextWorkload, dif_neg h,
        Scheduler.bucketsSum]
      omega
  | markRunning w =>
    by_cases h : w ∈ s.toScheduler.pending_workloads <;>
      simp [SchedOp.apply, SchedOp.isAdd, Scheduler.markWorkloadRunning, h,
        Scheduler.bucketsSum]
    have hlen := List.length_erase_add_one h
    omega
  | markCompleted w =>
    by_cases h : w ∈ s.toScheduler.running_workloads <;>
      simp [SchedOp.apply, SchedOp.isAdd, Scheduler.markWorkloadCompleted, h,
        Scheduler.bucketsSum]
    have hlen := List.length_erase_add_one h
    omega

/-- No operation other than `addWorkload` ever adds to the pending bucket:
each one leaves pending a sublist of what it was. -/
lemma pending_sublist_apply (s : RoundRobinScheduler) (op : SchedOp)
    (h : op.isAdd = false) :
    (op.apply s).pending_workloads.Sublist s.pending_workloads := by
  cases op with
  | add w => simp [SchedOp.isAdd] at h
  | getFIFO =>
    rcases hp : s.toScheduler.pending_workloads with _ | ⟨w, rest⟩ <;>
      simp [SchedOp.apply, FIFOScheduler.getNextWorkload, hp]
  | getPriority =>
    rcases hp : s.toScheduler.pending_workloads with _ | ⟨w, rest⟩ <;>
      simp [SchedOp.apply, PriorityScheduler.getNextWorkload, hp]
    exact List.erase_sublist _ _
  | getSJF =>
    rcases hp : s.toScheduler.pending_workloads with _ | ⟨w, rest⟩ <;>
      simp [SchedOp.apply, ShortestJobFirstScheduler.getNextWorkload, hp]
    exact List.erase_sublist _ _
  | getRoundRobin =>
    by_cases hp : s.pending_workloads = []
    · simp [SchedOp.apply, RoundRobinScheduler.getNextWorkload, hp]
    · simp [SchedOp.apply, RoundRobinScheduler.getNextWorkload, dif_neg hp]
      exact List.eraseIdx_sublist _ _
  | markRunning w =>
    by_cases hp : w ∈ s.toScheduler.pending_workloads <;>
      simp [SchedOp.apply, Scheduler.markWorkloadRunning, hp]
    exact List.erase_sublist _ _
  | markCompleted w =>
    by_cases hp : w ∈ s.toScheduler.running_workloads <;>
      simp [SchedOp.apply, Scheduler.markWorkloadCompleted, hp]

/-- Bucket counts after an operation sequence from any start state. -/
lemma bucketsSum_foldl (ops : List SchedOp) (s : RoundRobinScheduler) :
    (ops.foldl SchedOp.apply s).toScheduler.bucketsSum =
      s.toScheduler.bucketsSum + (ops.filter SchedOp.isAdd).length := by
  induction ops generalizing s with
  | nil => simp
  | cons op rest ih =>
    rw [List.foldl_cons, ih (op.apply s), bucketsSum_apply]
    rcases h : op.isAdd <;> simp [List.filter_cons, h] <;> omega

/-- Claim C5: over every sequence of scheduler operations the bucket sizes
satisfy `|pending| + |running| + |completed| = number of submitted kernels`,
and no operation but `addWorkload` ever re-inserts into pending (pending
only ever shrinks under the other operations). -/
theorem scheduler_bucket_invariant :
    (∀ ops : List SchedOp,
      (ops.foldl SchedOp.apply initScheduler).toScheduler.bucketsSum =
        (ops.filter SchedOp.isAdd).length) ∧
    (∀ (s : RoundRobinScheduler) (op : SchedOp), op.isAdd = false →
      (op.apply s).pending_workloads.Sublist s.pending_workloads) := by
  constructor
  · intro ops
    rw [bucketsSum_foldl ops initScheduler]
    simp [initScheduler, Scheduler.bucketsSum]
  · exact pending_sublist_apply

/-- Witness for C5: one submission followed by a FIFO dispatch keeps the
count at one, and the dispatch shrinks pending. -/
theorem scheduler_bucket_invariant_witness :
    (([SchedOp.add seedA, SchedOp.getFIFO].foldl SchedOp.apply
        initScheduler).toScheduler.bucketsSum =
      ([SchedOp.add seedA, SchedOp.getFIFO].filter SchedOp.isAdd).length) ∧
    (SchedOp.getFIFO.apply initScheduler).pending_workloads.Sublist
      initScheduler.pending_workloads :=
  ⟨scheduler_bucket_invariant.1 [SchedOp.add seedA, SchedOp.getFIFO],
   scheduler_bucket_invariant.2 initScheduler SchedOp.getFIFO rfl⟩

/-! ## C7: block materialization -/

lemma getNumThreads_create (wid bid n : Nat) :
    (Warp.create wid bid n).getNumThreads = n := by
  simp [Warp.create, Warp.getNumThreads]

/-- Partial sums of warp widths: `m` warps of width
`min 32 (t - j * 32)` hold `t` threads in total when `m = ceil(t / 32)`. -/
lemma sum_min_aux (m : Nat) : ∀ t : Nat, t ≤ 32 * m → 32 * m < t + 32 →
    ((List.range m).map (fun j => min 32 (t - j * 32))).sum = t := by
  induction m with
  | zero =>
    intro t h1 h2
    simp
    omega
  | succ n ih =>
    intro t h1 h2
    rw [List.range_succ_eq_map, List.map_cons, List.sum_cons, List.map_map]
    have hfun : ((fun j => min 32 (t - j * 32)) ∘ Nat.succ) =
        fun j => min 32 ((t - 32) - j * 32) := by
      funext j
      simp only [Function.comp]
      omega
    rw [hfun, ih (t - 32) (by omega) (by omega)]
    omega

/-- The warps of a freshly created block carry exactly `t` threads. -/
lemma sum_warp_widths (t : Nat) :
    ((List.range ((t + WARP_SIZE - 1) / WARP_SIZE)).map
      (fun j => min WARP_SIZE (t - j * WARP_SIZE))).sum = t := by
  have h : WARP_SIZE = 32 := rfl
  rw [h]
  exact sum_min_aux ((t + 32 - 1) / 32) t (by omega) (by omega)

/-- Claim C7: `generateThreadBlocks` is idempotent and produces exactly
`gx * gy * gz` blocks; block `i` is numbered `i`, sits at grid position
`(i mod gx, (i / gx) mod gy, i / (gx * gy))`, splits its
`threads_per_block` threads over `ceil(threads_per_block / 32)` warps of
width `min 32 (t - 32 j)` (the last possibly partial), and each warp's
active mask is all-ones for its width. -/
theorem generateThreadBlocks_spec (w : Workload) :
    ((w.generateThreadBlocks).generateThreadBlocks = w.generateThreadBlocks) ∧
    (w.generateThreadBlocks).thread_blocks.length = w.config.getTotalBlocks ∧
    (∀ i, (hi : i < (w.generateThreadBlocks).thread_blocks.length) →
      ((w.generateThreadBlocks).thread_blocks.get ⟨i, hi⟩).block_id = i ∧
      ((w.generateThreadBlocks).thread_blocks.get ⟨i, hi⟩).grid_x =
        i % w.config.grid_dim_x ∧
      ((w.generateThreadBlocks).thread_blocks.get ⟨i, hi⟩).grid_y =
        i / w.config.grid_dim_x % w.config.grid_dim_y ∧
      ((w.generateThreadBlocks).thread_blocks.get ⟨i, hi⟩).grid_z =
        i / (w.config.grid_dim_x * w.config.grid_dim_y) ∧
      ((w.generateThreadBlocks).thread_blocks.get ⟨i, hi⟩).getNumWarps =
        w.config.getThreadsPerBlock ⌈/⌉ WARP_SIZE ∧
      (((w.generateThreadBlocks).thread_blocks.get ⟨i, hi⟩).warps.map
        Warp.getNumThreads).sum = w.config.getThreadsPerBlock ∧
      (∀ j, (hj : j < ((w.generateThreadBlocks).thread_blocks.get ⟨i, hi⟩).warps.length) →
        (((w.generateThreadBlocks).thread_blocks.get ⟨i, hi⟩).warps.get
            ⟨j, hj⟩).getNumThreads =
          min WARP_SIZE (w.config.getThreadsPerBlock - j * WARP_SIZE) ∧
        (((w.generateThreadBlocks).thread_blocks.get ⟨i, hi⟩).warps.get
            ⟨j, hj⟩).active_mask =
          2 ^ (((w.generateThreadBlocks).thread_blocks.get ⟨i, hi⟩).warps.get
            ⟨j, hj⟩).getNumThreads - 1)) := by
  refine ⟨rfl, by simp [Workload.generateThreadBlocks], ?_⟩
  intro i hi
  have hget : (w.generateThreadBlocks).thread_blocks.get ⟨i, hi⟩ =
      { ThreadBlock.create i w.config.getThreadsPerBlock with
          grid_x := i % (w.config.grid_dim_x * w.config.grid_dim_y) % w.config.grid_dim_x
          grid_y := i % (w.config.grid_dim_x * w.config.grid_dim_y) / w.config.grid_dim_x
          grid_z := i / (w.config.grid_dim_x * w.config.grid_dim_y) } := by
    simp [Workload.generateThreadBlocks]
  rw [hget]
  refine ⟨by simp [ThreadBlock.create], ?_, ?_, rfl, ?_, ?_, ?_⟩
  · exact Nat.mod_mod_of_dvd i (dvd_mul_right _ _)
  · exact Nat.mod_mul_right_div_self i w.config.grid_dim_x w.config.grid_dim_y
  · simp [ThreadBlock.create, ThreadBlock.getNumWarps, Nat.ceilDiv_eq_add_pred_div]
  · simp only [ThreadBlock.create, List.map_map]
    have hfun : (Warp.getNumThreads ∘ fun j =>
        Warp.create j i (min WARP_SIZE (w.config.getThreadsPerBlock - j * WARP_SIZE))) =
        fun j => min WARP_SIZE (w.config.getThreadsPerBlock - j * WARP_SIZE) := by
      funext j
      simp [Function.comp, getNumThreads_create]
    rw [hfun]
    exact sum_warp_widths w.config.getThreadsPerBlock
  · intro j hj
    have hwget : ({ ThreadBlock.create i w.config.getThreadsPerBlock with
        grid_x := i % (w.config.grid_dim_x * w.config.grid_dim_y) % w.config.grid_dim_x
        grid_y := i % (w.config.grid_dim_x * w.config.grid_dim_y) / w.config.grid_dim_x
        grid_z := i / (w.config.grid_dim_x * w.config.grid_dim_y) } : ThreadBlock).warps.get
          ⟨j, hj⟩ =
        Warp.create j i (min WARP_SIZE (w.config.getThreadsPerBlock - j * WARP_SIZE)) := by
      simp [ThreadBlock.create]
    rw [hwget, getNumThreads_create]
    exact ⟨rfl, rfl⟩

/-- A two-block, 33-threads-per-block workload for the materialization
witness. -/
def witnessGridWorkload : Workload :=
  Workload.create "grid" WorkloadType.CUSTOM ⟨2, 1, 1, 33, 1, 1⟩

lemma witnessGridWorkload_len :
    1 < (witnessGridWorkload.generateThreadBlocks).thread_blocks.length := by
  simp [Workload.generateThreadBlocks, witnessGridWorkload, Workload.create,
    KernelConfig.getTotalBlocks]

/-- Witness for C7: block 1 of the sample workload is numbered 1 and sits at
grid position `(1, 0, 0)`. -/
theorem generateThreadBlocks_spec_witness :
    ((witnessGridWorkload.generateThreadBlocks).thread_blocks.get
        ⟨1, witnessGridWorkload_len⟩).block_id = 1 ∧
    ((witnessGridWorkload.generateThreadBlocks).thread_blocks.get
        ⟨1, witnessGridWorkload_len⟩).grid_x =
      1 % witnessGridWorkload.config.grid_dim_x := by
  have h := (generateThreadBlocks_spec witnessGridWorkload).2.2 1 witnessGridWorkload_len
  exact ⟨h.1, h.2.1⟩

/-! ## C3: admission control and block assignment -/

/-- `addWarp` touches only the ready queue. -/
lemma addWarp_fst_eq (cu : ComputeUnit) (w : Warp) :
    (cu.addWarp w).fst = { cu with ready_queue := (cu.addWarp w).fst.ready_queue } := by
  unfold ComputeUnit.addWarp
  split
  · rfl
  · split <;> rfl

/-- Offering a block's warps touches only the ready queue. -/
lemma offerWarps_eq (cu : ComputeUnit) (block : ThreadBlock) :
    cu.offerWarps block = { cu with ready_queue := (cu.offerWarps block).ready_queue } := by
  unfold ComputeUnit.offerWarps
  generalize block.warps = l
  induction l generalizing cu with
  | nil => rfl
  | cons w rest ih =>
    rw [List.foldl_cons]
    rw [ih ((cu.addWarp w).fst)]
    rw [addWarp_fst_eq]

/-- When every offered warp is Ready and the queue has room for all of them,
the offering loop appends them all in order. -/
lemma foldl_addWarp_all_ready (l : List Warp) (cu : ComputeUnit)
    (hlen : cu.ready_queue.length + l.length ≤ cu.max_warps)
    (hready : ∀ w ∈ l, w.state = ExecutionState.READY) :
    (l.foldl (fun c w => (c.addWarp w).fst) cu).ready_queue = cu.ready_queue ++ l := by
  induction l generalizing cu with
  | nil => simp
  | cons w rest ih =>
    rw [List.foldl_cons]
    have hnotfull : ¬cu.ready_queue.length ≥ cu.max_warps := by
      simp only [List.length_cons] at hlen
      omega
    have hw : w.state = ExecutionState.READY := hready w (List.mem_cons_self _ _)
    have hstep : (cu.addWarp w).fst = { cu with ready_queue := cu.ready_queue ++ [w] } := by
      unfold ComputeUnit.addWarp
      rw [if_neg hnotfull, if_pos hw]
    rw [hstep, ih]
    · simp
    · simp only [List.length_append, List.length_cons, List.length_nil] at hlen ⊢
      omega
    · intro x hx
      exact hready x (List.mem_cons_of_mem _ hx)

/-- Claim C3: `canAcceptBlock` is true iff fewer than 16 active blocks and at
most 64 warps counting the candidate; `assignBlock` re-tests and on rejection
returns false with the unit unchanged, while on success it offers every warp
of the block to the warp scheduler (changing nothing but the ready queue),
appends the block, moves to Running and returns true; when all the block's
warps are Ready and fit, the queue gains exactly those warps in order. -/
theorem canAcceptBlock_assignBlock_spec (cu : ComputeUnit) (block : ThreadBlock)
    (hmaxb : cu.max_blocks_per_cu = 16) (hmaxw : cu.max_warps_per_cu = 64) :
    (cu.canAcceptBlock block = true ↔
      cu.active_blocks.length < 16 ∧
      cu.getActiveWarpCount + block.getNumWarps ≤ 64) ∧
    (cu.canAcceptBlock block = false → cu.assignBlock block = (cu, false)) ∧
    (cu.canAcceptBlock block = true →
      cu.assignBlock block =
        ({ cu with
            ready_queue := (cu.offerWarps block).ready_queue
            active_blocks := cu.active_blocks ++ [block]
            state := ExecutionState.RUNNING }, true)) ∧
    (cu.ready_queue.length + block.getNumWarps ≤ cu.max_warps →
      (∀ w ∈ block.warps, w.state = ExecutionState.READY) →
      (cu.offerWarps block).ready_queue = cu.ready_queue ++ block.warps) := by
  refine ⟨?_, ?_, ?_, ?_⟩
  · unfold ComputeUnit.canAcceptBlock
    rw [hmaxb, hmaxw]
    split
    next h => simp; omega
    next h =>
      split
      next h2 => simp; omega
      next h2 => simp; omega
  · intro h
    unfold ComputeUnit.assignBlock
    rw [h]
    simp
  · intro h
    unfold ComputeUnit.assignBlock
    rw [h]
    simp only [if_true]
    rw [offerWarps_eq]
  · intro hlen hready
    unfold ComputeUnit.offerWarps
    exact foldl_addWarp_all_ready block.warps cu hlen hready

/-- Witness for C3: a freshly constructed compute unit accepts a one-warp
block, and assignment queues that warp. -/
theorem canAcceptBlock_assignBlock_spec_witness :
    ((ComputeUnit.create 0 MemoryController.create).canAcceptBlock
        (ThreadBlock.create 0 1) = true ↔
      (ComputeUnit.create 0 MemoryController.create).active_blocks.length < 16 ∧
      (ComputeUnit.create 0 MemoryController.create).getActiveWarpCount +
        (ThreadBlock.create 0 1).getNumWarps ≤ 64) ∧
    ((ComputeUnit.create 0 MemoryController.create).offerWarps
        (ThreadBlock.create 0 1)).ready_queue =
      (ComputeUnit.create 0 MemoryController.create).ready_queue ++
        (ThreadBlock.create 0 1).warps :=
  ⟨(canAcceptBlock_assignBlock_spec (ComputeUnit.create 0 MemoryController.create)
      (ThreadBlock.create 0 1) rfl rfl).1,
   (canAcceptBlock_assignBlock_spec (ComputeUnit.create 0 MemoryController.create)
      (ThreadBlock.create 0 1) rfl rfl).2.2.2 (by decide) (by decide)⟩

/-! ## C2: the cycle engine -/

/-- Closed form of an 8-instruction batch: the warp gains 8 instructions and
8 program-counter steps and one stall (at step 0) and ends Ready; the unit
gains 8 instructions, one executed warp, one stall cycle,
`latency / 10` stall-simulation cycles, and 2 recorded memory ops (steps 0
and 5). -/
lemma executeWarp_eight (cu : ComputeUnit) (w : Warp) :
    cu.executeWarp w 8 =
      ({ cu with
          cycles_executed := cu.cycles_executed +
            cu.memory_controller.global_memory.latency_cycles / 10
          instructions_executed := cu.instructions_executed + 8
          warps_executed := cu.warps_executed + 1
          cycles_stalled := cu.cycles_stalled + 1
          memory_controller := { cu.memory_controller with
            total_memory_ops := cu.memory_controller.total_memory_ops + 2 } },
        { w with
            state := ExecutionState.READY
            instructions_executed := w.instructions_executed + 8
            program_counter := w.program_counter + 8
            cycles_stalled := w.cycles_stalled + 1 }) := by
  have hr : List.range 8 = [0, 1, 2, 3, 4, 5, 6, 7] := rfl
  unfold ComputeUnit.executeWarp
  rw [hr]
  simp only [List.foldl_cons, List.foldl_nil]
  unfold ComputeUnit.execStep MemoryController.recordMemoryOp
  simp

/-- Claim C2: every `simulateCycle` counts one cycle; with nothing to fetch
it only adds an idle cycle; otherwise it runs an 8-instruction batch on the
fetched warp — 8 warp instructions and PC steps, 8 CU instructions, 2 memory
ops (steps 0 and 5), one stall on warp and CU with
`⌊global_latency / 10⌋ = 40` extra cycles (step 0) — then marks the warp
Completed at ≥ 1000 cumulative instructions (sweeping completed blocks) or
re-queues it in state Ready. -/
theorem simulateCycle_spec (cu : ComputeUnit)
    (hlat : cu.memory_controller.global_memory.latency_cycles = 400)
    (hq : cu.ready_queue.length ≤ cu.max_warps) :
    (cu.ready_queue = [] →
      cu.simulateCycle =
        ({ cu with
            cycles_executed := cu.cycles_executed + 1
            idle_cycles := cu.idle_cycles + 1 }, none)) ∧
    (∀ w rest, cu.ready_queue = w :: rest →
      (w.instructions_executed + 8 ≥ 1000 →
        cu.simulateCycle =
          ({ cu with
              ready_queue := rest
              active_blocks := sweepCompletedBlocks cu.active_blocks
              cycles_executed := cu.cycles_executed + 1 + 40
              instructions_executed := cu.instructions_executed + 8
              warps_executed := cu.warps_executed + 1
              cycles_stalled := cu.cycles_stalled + 1
              memory_controller := { cu.memory_controller with
                total_memory_ops := cu.memory_controller.total_memory_ops + 2 } },
            some { w with
              state := ExecutionState.COMPLETED
              instructions_executed := w.instructions_executed + 8
              program_counter := w.program_counter + 8
              cycles_stalled := w.cycles_stalled + 1 })) ∧
      (w.instructions_executed + 8 < 1000 →
        cu.simulateCycle =
          ({ cu with
              ready_queue := rest ++ [{ w with
                state := ExecutionState.READY
                instructions_executed := w.instructions_executed + 8
                program_counter := w.program_counter + 8
                cycles_stalled := w.cycles_stalled + 1 }]
              cycles_executed := cu.cycles_executed + 1 + 40
              instructions_executed := cu.instructions_executed + 8
              warps_executed := cu.warps_executed + 1
              cycles_stalled := cu.cycles_stalled + 1
              memory_controller := { cu.memory_controller with
                total_memory_ops := cu.memory_controller.total_memory_ops + 2 } },
            some { w with
              state := ExecutionState.READY
              instructions_executed := w.instructions_executed + 8
              program_counter := w.program_counter + 8
              cycles_stalled := w.cycles_stalled + 1 }))) := by
  constructor
  · intro h
    simp [ComputeUnit.simulateCycle, ComputeUnit.getNextWarp, h]
  · intro w rest h
    constructor
    · intro hge
      simp only [ComputeUnit.simulateCycle, ComputeUnit.getNextWarp, h]
      rw [executeWarp_eight]
      simp [hlat, hge]
    · intro hlt
      have hq2 : ¬(cu.max_warps ≤ rest.length) := by
        rw [h] at hq
        simp only [List.length_cons] at hq
        omega
      simp only [ComputeUnit.simulateCycle, ComputeUnit.getNextWarp, h]
      rw [executeWarp_eight]
      unfold ComputeUnit.addWarp
      simp [hlat, Nat.not_le.mpr hlt, hq2]

/-- Witness for C2: a freshly constructed compute unit with an empty ready
queue only counts the cycle and an idle cycle. -/
theorem simulateCycle_spec_witness :
    (ComputeUnit.create 0 MemoryController.create).simulateCycle =
      ({ ComputeUnit.create 0 MemoryController.create with
          cycles_executed := (ComputeUnit.create 0 MemoryController.create).cycles_executed + 1
          idle_cycles := (ComputeUnit.create 0 MemoryController.create).idle_cycles + 1 },
        none) :=
  (simulateCycle_spec (ComputeUnit.create 0 MemoryController.create) rfl
    (by decide)).1 rfl

end GPUSim
